import Mathlib

/-!
Shallow embedding of the authentication core of the `go-basics` user-account
service, together with theorems checking its natural-language specification.

Source files embedded:
- `internal/auth/jwt.go`          : `JWTManager.GenerateToken` / `JWTManager.ValidateToken`
  (on top of the `github.com/golang-jwt/jwt/v5` library, whose parsing and
  claim-validation behaviour is modelled explicitly below)
- `internal/auth/middleware.go`   : `extractBearerToken`, `Middleware.Authenticate`
- `internal/domain/user/*.go`     : the rich service (`repository.go`), the duplicate
  minimal service (`service.go`), `errors.go`
- `internal/repository/mysql/user_repository.go` : soft-delete-aware store operations
- `internal/handler/http/user_handler.go` : `get` / `update` / `delete` handlers

Machine integers are modelled as `Nat`/`Int`; timestamps as `Int` (Unix time);
`time.Duration` as a `Nat` (the configured token lifetime, non-negative).
Cryptographic primitives are modelled as ideal, collision-free functions of
the exact data they consume: an HMAC signature is represented by key,
algorithm and payload; a bcrypt digest by cost, salt and the key material the
Blowfish key schedule actually reads — the first 72 bytes of the
NUL-terminated password repeated cyclically — so that the primitive's
truncation behaviour is replicated, not idealized away.
-/

/-! ## Token codec: internal/auth/jwt.go over golang-jwt/jwt/v5 -/

/-- JWT signing algorithms, as declared in a token's header.  `HS256`, `HS384`
and `HS512` are the symmetric HMAC family (`jwt.SigningMethodHMAC`); the others
stand for the non-HMAC methods an attacker could substitute. -/
inductive Alg where
  | HS256
  | HS384
  | HS512
  | RS256
  | ES256
  | noneAlg
deriving DecidableEq, Repr

/-- The type assertion `token.Method.(*jwt.SigningMethodHMAC)` in the key
function of `ValidateToken`: true exactly for the HMAC family. -/
def Alg.isHMAC : Alg → Bool
  | .HS256 => true
  | .HS384 => true
  | .HS512 => true
  | _ => false

/-- The JWT payload of `internal/auth/jwt.go` (`Claims`): user id, email, and
the registered claims the code sets (issuer, expires-at, issued-at,
not-before), timestamps as Unix times. -/
structure Claims where
  userID : Nat
  email : String
  iss : String
  exp : Int
  iat : Int
  nbf : Int
deriving DecidableEq, Repr

/-- An idealized HMAC signature: it records the key, the algorithm and the
signed payload, so signature equality holds exactly when all three agree
(a perfect MAC; collisions of HMAC-SHA256 are outside the model). -/
structure Sig where
  key : String
  alg : Alg
  payload : Claims
deriving DecidableEq, Repr

/-- Idealized `token.SignedString(secret)` / `token.Method.Verify`: signing
produces the record of what was signed and under which key. -/
def hmacSign (secret : String) (alg : Alg) (c : Claims) : Sig :=
  ⟨secret, alg, c⟩

/-- A structurally well-formed JWT: declared algorithm, payload, signature.
Strings that do not decode to this shape are the `malformed` parse error and
are not representable here. -/
structure Token where
  alg : Alg
  claims : Claims
  sig : Sig
deriving DecidableEq, Repr

/-- `JWTManager` of `internal/auth/jwt.go`: signing secret, token lifetime
(seconds, non-negative as configured), issuer. -/
structure JWTManager where
  secret : String
  duration : Nat
  issuer : String
deriving DecidableEq, Repr

/-- `JWTManager.GenerateToken` (jwt.go): stamps `ExpiresAt = now + duration`,
`IssuedAt = now`, `NotBefore = now`, `Issuer = m.issuer`, and signs with
HS256 under the manager's secret.  `now` is passed explicitly (the Go code
reads the wall clock). -/
def generateToken (m : JWTManager) (userID : Nat) (email : String) (now : Int) : Token :=
  let claims : Claims :=
    { userID := userID
      email := email
      iss := m.issuer
      exp := now + m.duration
      iat := now
      nbf := now }
  { alg := .HS256, claims := claims, sig := hmacSign m.secret .HS256 claims }

/-- The error classification produced inside `jwt.ParseWithClaims` (golang-jwt
v5 sentinel errors): structurally unparsable input, key-function rejection of
a non-HMAC algorithm, signature mismatch, expired, not yet valid. -/
inductive ParseErr where
  | malformed
  | algMismatch
  | badSignature
  | expired
  | notYetValid
deriving DecidableEq, Repr

/-- `jwt.ParseWithClaims` with the key function of `ValidateToken` (jwt.go),
following the order of golang-jwt v5's parser: the key function rejects any
non-HMAC method; then the signature is verified; then the registered claims
are validated — valid iff `now < exp` (expired otherwise) and `nbf ≤ now`
(not yet valid otherwise).  Issued-at and issuer are not validated by v5
defaults. -/
def parseWithClaims (tok : Token) (secret : String) (now : Int) : Except ParseErr Claims :=
  if tok.alg.isHMAC then
    if tok.sig = hmacSign secret tok.alg tok.claims then
      if now < tok.claims.exp then
        if tok.claims.nbf ≤ now then .ok tok.claims
        else .error .notYetValid
      else .error .expired
    else .error .badSignature
  else .error .algMismatch

/-- The sentinel errors of `internal/auth/jwt.go`: `ErrInvalidToken` and
`ErrExpiredToken`.  These are the only error values `ValidateToken` returns. -/
inductive ValidateErr where
  | invalidToken
  | expiredToken
deriving DecidableEq, Repr

/-- `JWTManager.ValidateToken` (jwt.go): parse and validate, then map the
library error — `errors.Is(err, jwt.ErrTokenExpired)` yields `ErrExpiredToken`,
every other failure collapses to `ErrInvalidToken`. -/
def validateToken (m : JWTManager) (tok : Token) (now : Int) : Except ValidateErr Claims :=
  match parseWithClaims tok m.secret now with
  | .ok c => .ok c
  | .error .expired => .error .expiredToken
  | .error _ => .error .invalidToken

/-! ## String primitives

The Go standard-library string functions the code uses, modelled structurally
over the character list so that every concrete evaluation reduces in the
kernel. -/

/-- `strings.Split` on a single-character separator: splitting the empty
string yields one empty part, and every separator occurrence starts a new
(possibly empty) part, exactly as in Go. -/
def splitChars (sep : Char) : List Char → List (List Char)
  | [] => [[]]
  | c :: cs =>
    if c = sep then [] :: splitChars sep cs
    else
      match splitChars sep cs with
      | [] => [[c]]
      | w :: ws => (c :: w) :: ws

/-- `strings.Split s sep` for a one-character separator, as a list of
strings. -/
def strSplit (s : String) (sep : Char) : List String :=
  (splitChars sep s.data).map String.mk

/-- `strings.ToLower` restricted to its ASCII fragment (`Char.toLower`); the
code only compares the result against the ASCII literal "bearer", for which
the ASCII fold is the relevant behaviour. -/
def strToLower (s : String) : String :=
  String.mk (s.data.map Char.toLower)

/-! ## Authentication gate: internal/auth/middleware.go -/

/-- `extractBearerToken` (middleware.go): empty header is rejected; otherwise
the header value is split on single spaces (`strings.Split`) and must be
exactly two parts with the first equal to "bearer" after lowercasing. -/
def extractBearerToken (authHeader : String) : Option String :=
  if authHeader = "" then none
  else
    match strSplit authHeader ' ' with
    | [scheme, tok] => if strToLower scheme = "bearer" then some tok else none
    | _ => none

/-- Outcome of the middleware for one request: either an `http.Error` rejection
(status and message) or the request proceeds with the verified claims bound
into the request context. -/
inductive AuthOutcome where
  | rejected (status : Nat) (msg : String)
  | passed (c : Claims)
deriving DecidableEq, Repr

/-- `Middleware.Authenticate` (middleware.go), parameterized by the token
codec `validate` (the Go code calls `m.jwtManager.ValidateToken` on the raw
token string): extraction failure is a 401 "missing or invalid authorization
header"; `ErrExpiredToken` is a 401 "token has expired"; any other codec
failure is a 401 "invalid token"; on success the claims are attached to the
context and the wrapped handler runs. -/
def authenticate (validate : String → Except ValidateErr Claims) (authHeader : String) :
    AuthOutcome :=
  match extractBearerToken authHeader with
  | none => .rejected 401 "missing or invalid authorization header"
  | some tok =>
    match validate tok with
    | .error .expiredToken => .rejected 401 "token has expired"
    | .error .invalidToken => .rejected 401 "invalid token"
    | .ok c => .passed c

/-! ## Credential hasher: golang.org/x/crypto/bcrypt as used by the services -/

/-- `bcryptCost` constant of `internal/domain/user/repository.go`. -/
def bcryptCost : Nat := 12

/-- `bcrypt.DefaultCost` of golang.org/x/crypto/bcrypt, used by the duplicate
minimal service in `internal/domain/user/service.go`. -/
def bcryptDefaultCost : Nat := 10

/-- `MinPasswordLength` constant of repository.go. -/
def minPasswordLength : Nat := 8

/-- `MaxPasswordLength` constant of repository.go (bcrypt's 72-byte limit). -/
def maxPasswordLength : Nat := 72

/-- The UTF-8 encoding of one character, as byte values (Go strings are byte
slices; bcrypt consumes these bytes). -/
def utf8Bytes (c : Char) : List Nat :=
  if c.toNat ≤ 0x7F then [c.toNat]
  else if c.toNat ≤ 0x7FF then
    [192 + c.toNat / 64, 128 + c.toNat % 64]
  else if c.toNat ≤ 0xFFFF then
    [224 + c.toNat / 4096, 128 + c.toNat / 64 % 64, 128 + c.toNat % 64]
  else
    [240 + c.toNat / 262144, 128 + c.toNat / 4096 % 64,
     128 + c.toNat / 64 % 64, 128 + c.toNat % 64]

/-- The UTF-8 bytes of a string (what Go's `[]byte(password)` yields). -/
def strBytes (s : String) : List Nat :=
  (s.data.map utf8Bytes).flatten

/-- The first `n` bytes of the cyclic repetition of `bs`, as read by
`getNextWord` in the Blowfish key schedule (index taken modulo the key
length). -/
def cyclicTake (n : Nat) (bs : List Nat) : List Nat :=
  (List.range n).map (fun i => bs.getD (i % bs.length) 0)

/-- The key material bcrypt actually feeds to Blowfish:
`expensiveBlowfishSetup` appends a NUL byte to the password
(`ckey := append(key, 0)`) and the salted key schedule XORs exactly 18
32-bit words — 72 bytes — taken cyclically from that NUL-terminated key into
the P-array; no further key bytes are consumed.  Two passwords hash (and
verify) identically exactly when this material coincides. -/
def bcryptKey (password : String) : List Nat :=
  cyclicTake 72 (strBytes password ++ [0])

/-- A bcrypt digest, the self-describing hash string `$2a$cost$salt+hash`
modelled as its content: cost factor, the random salt drawn at generation
time, and the hash payload, which for an ideal (collision-free) cipher
determines and is determined by the consumed key material `bcryptKey`. -/
structure Digest where
  cost : Nat
  salt : Nat
  key : List Nat
deriving DecidableEq, Repr

/-- `bcrypt.GenerateFromPassword`: rejects inputs longer than 72 bytes
(`ErrPasswordTooLong`); a cost below `MinCost` (4) falls back to
`DefaultCost`, a cost above `MaxCost` (31) is `InvalidCostError`; otherwise
it draws a random salt (passed here explicitly) and hashes the key-schedule
material of the password. -/
def bcryptGenerateFromPassword (password : String) (cost : Nat) (salt : Nat) :
    Except String Digest :=
  if 72 < password.utf8ByteSize then .error "bcrypt: password length exceeds 72 bytes"
  else
    let c := if cost < 4 then 10 else cost
    if 31 < c then .error "crypto/bcrypt: cost out of range"
    else .ok ⟨c, salt, bcryptKey password⟩

/-- `bcrypt.CompareHashAndPassword`: recomputes the hash from the candidate
password under the digest's salt and cost and compares.  It performs no
length check (only `GenerateFromPassword` does), so the comparison succeeds
exactly when the candidate's 72-byte cyclic key-schedule material equals the
digest's — in particular any extension of a 72-byte password verifies.  The
Go function returns `nil` on match and an error on mismatch; the boolean
records that distinction. -/
def bcryptCompareHashAndPassword (d : Digest) (password : String) : Bool :=
  d.key == bcryptKey password

/-! ## User store: internal/repository/mysql/user_repository.go -/

/-- A row of the `users` table: id, email, password hash, soft-delete flag
(`deleted_at IS NOT NULL`). -/
structure User where
  id : Nat
  email : String
  passwordHash : Digest
  deleted : Bool
deriving DecidableEq, Repr

/-- The `users` table. -/
abbrev Store := List User

/-- `UserRepository.FindByID`: `WHERE id = ? AND deleted_at IS NULL`;
returns none (not an error) when no row matches. -/
def findByID (st : Store) (id : Nat) : Option User :=
  (st.filter (fun u => !u.deleted && u.id == id)).head?

/-- `UserRepository.FindByEmail`: `WHERE email = ? AND deleted_at IS NULL`. -/
def findByEmail (st : Store) (email : String) : Option User :=
  (st.filter (fun u => !u.deleted && u.email == email)).head?

/-- MySQL `AUTO_INCREMENT` id for a fresh row, as surfaced by
`LastInsertId` in `UserRepository.Create`. -/
def nextId (st : Store) : Nat :=
  st.foldl (fun m u => max m u.id) 0 + 1

/-- `UserRepository.Create`: insert the row and report the generated id. -/
def repoCreate (st : Store) (email : String) (hash : Digest) : User × Store :=
  let u : User := { id := nextId st, email := email, passwordHash := hash, deleted := false }
  (u, st ++ [u])

/-- `UserRepository.Update`: `SET email = ?, password_hash = ? WHERE id = ?
AND deleted_at IS NULL`. -/
def repoUpdate (st : Store) (u : User) : Store :=
  st.map (fun v =>
    if v.id == u.id && !v.deleted then
      { v with email := u.email, passwordHash := u.passwordHash }
    else v)

/-- `UserRepository.Delete`: soft delete, `SET deleted_at = NOW() WHERE id = ?
AND deleted_at IS NULL`. -/
def repoDelete (st : Store) (id : Nat) : Store :=
  st.map (fun v => if v.id == id && !v.deleted then { v with deleted := true } else v)

/-! ## Domain service: internal/domain/user/repository.go and service.go -/

/-- The error values of `internal/domain/user/errors.go` and service.go:
sentinel errors plus the structured `ValidationError`. -/
inductive ServiceErr where
  | notFound
  | emailExists
  | invalidCredentials
  | invalidEmail
  | passwordTooShort
  | passwordTooLong
  | validationFailure (field : String) (msg : String)
  | internalFailure (msg : String)
deriving DecidableEq, Repr

/-- Character class `[a-zA-Z0-9._%+-]` of the email regular expression. -/
def isEmailLocalChar (c : Char) : Bool :=
  c.isAlphanum || c == '.' || c == '_' || c == '%' || c == '+' || c == '-'

/-- Character class `[a-zA-Z0-9.-]` of the email regular expression. -/
def isEmailDomainChar (c : Char) : Bool :=
  c.isAlphanum || c == '.' || c == '-'

/-- The anchored regular expression `emailRegex` of repository.go:
`[a-zA-Z0-9._%+-]+ @ [a-zA-Z0-9.-]+ \. [a-zA-Z]{2,}`.  Neither class accepts
an at-sign, so a match has exactly one at-sign; the dot before the final
alphabetic run must be the last dot of the domain (any earlier choice leaves
a dot inside the `[a-zA-Z]{2,}` tail), so the domain splits at the last dot
into a non-empty run of domain characters — `comps.dropLast` non-trivial,
every component over the domain class — and an alphabetic tail of length at
least two. -/
def emailRegexMatch (email : String) : Bool :=
  match splitChars '@' email.data with
  | [localPart, domainPart] =>
    !localPart.isEmpty && localPart.all isEmailLocalChar &&
    (let comps := splitChars '.' domainPart
     let tld := comps.getLastD []
     let front := comps.dropLast
     decide (2 ≤ comps.length) && decide (front ≠ [[]]) &&
       front.all (fun p => p.all isEmailDomainChar) &&
       decide (2 ≤ tld.length) && tld.all Char.isAlpha)
  | _ => false

/-- `validateEmail` (repository.go). -/
def validateEmail (email : String) : Option ServiceErr :=
  if email = "" then some (.validationFailure "email" "email is required")
  else if !emailRegexMatch email then some .invalidEmail
  else none

/-- `validatePassword` (repository.go): empty, byte length below
`MinPasswordLength`, byte length above `MaxPasswordLength` (Go `len` on a
string counts bytes). -/
def validatePassword (password : String) : Option ServiceErr :=
  if password = "" then some (.validationFailure "password" "password is required")
  else if password.utf8ByteSize < minPasswordLength then some .passwordTooShort
  else if maxPasswordLength < password.utf8ByteSize then some .passwordTooLong
  else none

/-- `hashPassword` (repository.go): `bcrypt.GenerateFromPassword` at
`bcryptCost`. -/
def hashPassword (password : String) (salt : Nat) : Except String Digest :=
  bcryptGenerateFromPassword password bcryptCost salt

/-- `Service.Create` of repository.go (the service wired to the HTTP
handler): validate email, validate password, reject an existing email, hash,
insert (storing the email lowercased).  `salt` is the randomness drawn by
bcrypt. -/
def serviceCreate (st : Store) (email password : String) (salt : Nat) :
    Except ServiceErr (User × Store) :=
  match validateEmail email with
  | some e => .error e
  | none =>
    match validatePassword password with
    | some e => .error e
    | none =>
      match findByEmail st email with
      | some _ => .error .emailExists
      | none =>
        match hashPassword password salt with
        | .error msg => .error (.internalFailure msg)
        | .ok d => .ok (repoCreate st (strToLower email) d)

/-- `Service.GetByID` (repository.go): not-found is `ErrNotFound`. -/
def serviceGetByID (st : Store) (id : Nat) : Except ServiceErr User :=
  match findByID st id with
  | none => .error .notFound
  | some u => .ok u

/-- `Service.Update` (repository.go): find the user; if a new, different
email is supplied validate it and reject one taken by another user; if a new
password is supplied validate and hash it; persist via the repository. -/
def serviceUpdate (st : Store) (id : Nat) (email password : String) (salt : Nat) :
    Except ServiceErr (User × Store) :=
  match findByID st id with
  | none => .error .notFound
  | some u0 =>
    let emailStep : Except ServiceErr User :=
      if email ≠ "" ∧ email ≠ u0.email then
        match validateEmail email with
        | some e => .error e
        | none =>
          match findByEmail st email with
          | some ex =>
            if ex.id ≠ id then .error .emailExists
            else .ok { u0 with email := strToLower email }
          | none => .ok { u0 with email := strToLower email }
      else .ok u0
    match emailStep with
    | .error e => .error e
    | .ok u1 =>
      let pwStep : Except ServiceErr User :=
        if password ≠ "" then
          match validatePassword password with
          | some e => .error e
          | none =>
            match hashPassword password salt with
            | .error msg => .error (.internalFailure msg)
            | .ok d => .ok { u1 with passwordHash := d }
        else .ok u1
      match pwStep with
      | .error e => .error e
      | .ok u2 => .ok (u2, repoUpdate st u2)

/-- `Service.Delete` (repository.go): find, then soft delete. -/
def serviceDelete (st : Store) (id : Nat) : Except ServiceErr Store :=
  match findByID st id with
  | none => .error .notFound
  | some _ => .ok (repoDelete st id)

/-- `Service.Authenticate` (repository.go): look up the lowercased email;
a missing user and a failing password comparison both return
`ErrInvalidCredentials`. -/
def serviceAuthenticate (st : Store) (email password : String) :
    Except ServiceErr User :=
  match findByEmail st (strToLower email) with
  | none => .error .invalidCredentials
  | some u =>
    if bcryptCompareHashAndPassword u.passwordHash password then .ok u
    else .error .invalidCredentials

/-- `Service.Login` of the duplicate minimal service (service.go): same
shape as `Service.Authenticate` but without lowercasing the email. -/
def serviceLogin (st : Store) (email password : String) : Except ServiceErr User :=
  match findByEmail st email with
  | none => .error .invalidCredentials
  | some u =>
    if bcryptCompareHashAndPassword u.passwordHash password then .ok u
    else .error .invalidCredentials

/-- `Service.Create` of the duplicate minimal service (service.go): no email
or password validation, the email-lookup error is ignored, and the password
is hashed with `bcrypt.DefaultCost`; the email is stored as given. -/
def serviceCreateMinimal (st : Store) (email plaintext : String) (salt : Nat) :
    Except ServiceErr (User × Store) :=
  match findByEmail st email with
  | some _ => .error .emailExists
  | none =>
    match bcryptGenerateFromPassword plaintext bcryptDefaultCost salt with
    | .error msg => .error (.internalFailure msg)
    | .ok d => .ok (repoCreate st email d)

/-- `Service.Update` of the duplicate minimal service (service.go): rehash
the supplied plaintext with `bcrypt.DefaultCost` and persist, with no
validation and no existence check. -/
def serviceUpdateMinimal (st : Store) (id : Nat) (email plaintext : String) (salt : Nat) :
    Except ServiceErr (User × Store) :=
  match bcryptGenerateFromPassword plaintext bcryptDefaultCost salt with
  | .error msg => .error (.internalFailure msg)
  | .ok d =>
    let u : User := { id := id, email := email, passwordHash := d, deleted := false }
    .ok (u, repoUpdate st u)

/-! ## HTTP handlers: internal/handler/http/user_handler.go -/

/-- `userResponse`: the JSON body returned for a user. -/
structure UserResponse where
  id : Nat
  email : String
deriving DecidableEq, Repr

/-- An HTTP response of the embedded handlers: a JSON body with status, a
JSON error (`writeError`), a plain-text error (`http.Error`, used by the
middleware), or 204 No Content. -/
inductive HResp where
  | json (status : Nat) (body : UserResponse)
  | errJson (status : Nat) (msg : String)
  | plainErr (status : Nat) (msg : String)
  | noContent
deriving DecidableEq, Repr

/-- `updateRequest`: optional email and password (absent JSON fields decode
to the empty string in Go). -/
structure UpdateRequest where
  email : String
  password : String
deriving DecidableEq, Repr

/-- `strconv.ParseUint(s, 10, 64)` as used for the `{id}` path parameter:
a non-empty all-digit string whose value fits in 64 bits. -/
def parseUint64 (s : String) : Option Nat :=
  if s = "" then none
  else if s.data.all Char.isDigit then
    let n := s.data.foldl (fun acc c => acc * 10 + (c.toNat - 48)) 0
    if n < 18446744073709551616 then some n else none
  else none

/-- `handleServiceError` (user_handler.go): map domain errors to HTTP
responses. -/
def handleServiceError : ServiceErr → HResp
  | .notFound => .errJson 404 "user not found"
  | .emailExists => .errJson 409 "email already exists"
  | .invalidCredentials => .errJson 401 "invalid email or password"
  | .invalidEmail => .errJson 400 "invalid email format"
  | .passwordTooShort => .errJson 400 "password must be at least 8 characters"
  | .passwordTooLong => .errJson 400 "password must be at most 72 characters"
  | .validationFailure field msg => .errJson 400 (field ++ ": " ++ msg)
  | .internalFailure _ => .errJson 500 "internal server error"

/-- `UserHandler.get` (user_handler.go): parse the id, fetch, respond.  The
claims bound into the request context are available but never read — there
is no ownership check on this endpoint. -/
def getHandler (_ctxClaims : Option Claims) (idStr : String) (st : Store) : HResp :=
  match parseUint64 idStr with
  | none => .errJson 400 "invalid user ID"
  | some id =>
    match serviceGetByID st id with
    | .error e => handleServiceError e
    | .ok u => .json 200 ⟨u.id, u.email⟩

/-- The part of `UserHandler.update` after the authorization check: decode
the JSON body, call `Service.Update`, respond. -/
def updateCore (st : Store) (id : Nat) (body : Option UpdateRequest) (salt : Nat) :
    HResp × Store :=
  match body with
  | none => (.errJson 400 "invalid JSON format", st)
  | some req =>
    match serviceUpdate st id req.email req.password salt with
    | .error e => (handleServiceError e, st)
    | .ok (u, st') => (.json 200 ⟨u.id, u.email⟩, st')

/-- `UserHandler.update` (user_handler.go): parse the id; read the claims
from the request context (401 if absent); forbid the operation unless the
authenticated subject id equals the target id (403); then run the update. -/
def updateHandler (idStr : String) (ctxClaims : Option Claims) (body : Option UpdateRequest)
    (st : Store) (salt : Nat) : HResp × Store :=
  match parseUint64 idStr with
  | none => (.errJson 400 "invalid user ID", st)
  | some id =>
    match ctxClaims with
    | none => (.errJson 401 "unauthorized", st)
    | some c =>
      if c.userID = id then updateCore st id body salt
      else (.errJson 403 "you can only update your own profile", st)

/-- The part of `UserHandler.delete` after the authorization check. -/
def deleteCore (st : Store) (id : Nat) : HResp × Store :=
  match serviceDelete st id with
  | .error e => (handleServiceError e, st)
  | .ok st' => (.noContent, st')

/-- `UserHandler.delete` (user_handler.go): same authorization rule as
`update`, then soft delete with 204 No Content. -/
def deleteHandler (idStr : String) (ctxClaims : Option Claims) (st : Store) :
    HResp × Store :=
  match parseUint64 idStr with
  | none => (.errJson 400 "invalid user ID", st)
  | some id =>
    match ctxClaims with
    | none => (.errJson 401 "unauthorized", st)
    | some c =>
      if c.userID = id then deleteCore st id
      else (.errJson 403 "you can only delete your own account", st)

/-- The route `GET /users/{id}` as registered in `RegisterRoutes`:
`authMiddleware.AuthenticateFunc(h.get)` — the gate runs first and its
rejection is the response; on success the handler runs with the claims in
context. -/
def authedGet (validate : String → Except ValidateErr Claims)
    (authHeader idStr : String) (st : Store) : HResp :=
  match authenticate validate authHeader with
  | .rejected status msg => .plainErr status msg
  | .passed c => getHandler (some c) idStr st

/-! ## Theorems -/

/-- C1 counterexample: the claim says `ValidateToken` fails with a distinct
`NotYetValidError` for `t < not-before`.  It does not: `ValidateToken`'s only
error values are `ErrExpiredToken` and `ErrInvalidToken`, and a token
verified one second before its not-before yields the same generic
`ErrInvalidToken` that a token forged under a different secret yields, so the
not-yet-valid case is not a distinguishable outcome. -/
theorem C1_notYetValid_is_generic_invalid :
    validateToken ⟨"secret-a", 900, "go-basics"⟩
        (generateToken ⟨"secret-a", 900, "go-basics"⟩ 7 "alice@example.com" 1000) 999 =
      .error .invalidToken ∧
    validateToken ⟨"secret-a", 900, "go-basics"⟩
        { generateToken ⟨"secret-a", 900, "go-basics"⟩ 7 "alice@example.com" 1000 with
          sig := hmacSign "secret-b" .HS256
            (generateToken ⟨"secret-a", 900, "go-basics"⟩ 7 "alice@example.com" 1000).claims }
        999 =
      .error .invalidToken := by
  constructor <;> rfl

/-- C1 (amended): `GenerateToken` at `t0` then `ValidateToken` at `t` returns
the original subject id and email whenever `not-before ≤ t < expires-at`
(with issued-at = not-before = `t0`, expires-at = `t0` + duration), fails
with `ErrExpiredToken` for `t ≥ expires-at`, and for `t < not-before` fails
with the generic `ErrInvalidToken` (not a distinct not-yet-valid error). -/
theorem C1_issue_then_verify (m : JWTManager) (id : Nat) (email : String) (t0 t : Int) :
    (t0 ≤ t → t < t0 + m.duration →
      validateToken m (generateToken m id email t0) t =
        .ok { userID := id, email := email, iss := m.issuer,
              exp := t0 + m.duration, iat := t0, nbf := t0 }) ∧
    (t0 + m.duration ≤ t →
      validateToken m (generateToken m id email t0) t = .error .expiredToken) ∧
    (t < t0 →
      validateToken m (generateToken m id email t0) t = .error .invalidToken) := by
  refine ⟨?_, ?_, ?_⟩
  · intro h1 h2
    simp [validateToken, generateToken, parseWithClaims, hmacSign, Alg.isHMAC, h1, h2]
  · intro h
    have hn : ¬ (t < t0 + (m.duration : Int)) := not_lt.mpr h
    simp [validateToken, generateToken, parseWithClaims, hmacSign, Alg.isHMAC, hn]
  · intro h
    have h2 : t < t0 + (m.duration : Int) := by omega
    have hn : ¬ ((t0 : Int) ≤ t) := not_le.mpr h
    simp [validateToken, generateToken, parseWithClaims, hmacSign, Alg.isHMAC, h2, hn]

/-- Witness for C1 at a concrete manager, subject and clock. -/
theorem C1_issue_then_verify_witness :
    validateToken ⟨"secret-a", 900, "go-basics"⟩
        (generateToken ⟨"secret-a", 900, "go-basics"⟩ 7 "alice@example.com" 1000) 1500 =
      .ok { userID := 7, email := "alice@example.com", iss := "go-basics",
            exp := 1900, iat := 1000, nbf := 1000 } ∧
    validateToken ⟨"secret-a", 900, "go-basics"⟩
        (generateToken ⟨"secret-a", 900, "go-basics"⟩ 7 "alice@example.com" 1000) 1900 =
      .error .expiredToken ∧
    validateToken ⟨"secret-a", 900, "go-basics"⟩
        (generateToken ⟨"secret-a", 900, "go-basics"⟩ 7 "alice@example.com" 1000) 999 =
      .error .invalidToken :=
  ⟨(C1_issue_then_verify ⟨"secret-a", 900, "go-basics"⟩ 7 "alice@example.com" 1000 1500).1
      (by decide) (by decide),
   (C1_issue_then_verify ⟨"secret-a", 900, "go-basics"⟩ 7 "alice@example.com" 1000 1900).2.1
      (by decide),
   (C1_issue_then_verify ⟨"secret-a", 900, "go-basics"⟩ 7 "alice@example.com" 1000 999).2.2
      (by decide)⟩

/-- C2: verification rejects every token whose signature does not verify
under the server's current secret — in particular any token generated under
a different secret fails with the bad-signature classification — and every
token whose declared algorithm is outside the HMAC family fails with the
algorithm-mismatch classification; no such token is ever accepted
(`ValidateToken` reports them all as `ErrInvalidToken`). -/
theorem C2_reject_bad_signature_and_foreign_alg (m : JWTManager) (tok : Token) (t : Int) :
    (tok.alg.isHMAC = true → tok.sig ≠ hmacSign m.secret tok.alg tok.claims →
      parseWithClaims tok m.secret t = .error .badSignature ∧
      validateToken m tok t = .error .invalidToken) ∧
    (tok.alg.isHMAC = false →
      parseWithClaims tok m.secret t = .error .algMismatch ∧
      validateToken m tok t = .error .invalidToken) ∧
    (∀ (mB : JWTManager) (id : Nat) (email : String) (t0 : Int), mB.secret ≠ m.secret →
      parseWithClaims (generateToken mB id email t0) m.secret t = .error .badSignature ∧
      validateToken m (generateToken mB id email t0) t = .error .invalidToken) ∧
    ((tok.sig ≠ hmacSign m.secret tok.alg tok.claims ∨ tok.alg.isHMAC = false) →
      ∀ c, validateToken m tok t ≠ .ok c) := by
  have hbad : tok.alg.isHMAC = true → tok.sig ≠ hmacSign m.secret tok.alg tok.claims →
      parseWithClaims tok m.secret t = .error .badSignature := by
    intro hh hs
    simp [parseWithClaims, hh, hs]
  have halg : tok.alg.isHMAC = false → parseWithClaims tok m.secret t = .error .algMismatch := by
    intro hh
    simp [parseWithClaims, hh]
  refine ⟨?_, ?_, ?_, ?_⟩
  · intro hh hs
    exact ⟨hbad hh hs, by simp [validateToken, hbad hh hs]⟩
  · intro hh
    exact ⟨halg hh, by simp [validateToken, halg hh]⟩
  · intro mB id email t0 hsec
    have hp : parseWithClaims (generateToken mB id email t0) m.secret t =
        .error .badSignature := by
      simp [parseWithClaims, generateToken, hmacSign, Alg.isHMAC, Sig.mk.injEq, hsec]
    exact ⟨hp, by simp [validateToken, hp]⟩
  · rintro (hs | hh) c
    · by_cases hh : tok.alg.isHMAC = true
      · simp [validateToken, hbad hh hs]
      · simp [validateToken, halg (by simpa using hh)]
    · simp [validateToken, halg hh]

/-- Witness for C2: a token signed under secret-b is rejected by a verifier
holding secret-a, and an RS256-labelled token is rejected as an algorithm
mismatch; neither is accepted. -/
theorem C2_reject_bad_signature_and_foreign_alg_witness :
    parseWithClaims (generateToken ⟨"secret-b", 900, "go-basics"⟩ 7 "alice@example.com" 1000)
        "secret-a" 1500 = .error .badSignature ∧
    validateToken ⟨"secret-a", 900, "go-basics"⟩
        (generateToken ⟨"secret-b", 900, "go-basics"⟩ 7 "alice@example.com" 1000) 1500 =
      .error .invalidToken ∧
    parseWithClaims
        { alg := .RS256,
          claims := { userID := 7, email := "alice@example.com", iss := "go-basics",
                      exp := 1900, iat := 1000, nbf := 1000 },
          sig := hmacSign "secret-a" .RS256
            { userID := 7, email := "alice@example.com", iss := "go-basics",
              exp := 1900, iat := 1000, nbf := 1000 } }
        "secret-a" 1500 = .error .algMismatch :=
  ⟨((C2_reject_bad_signature_and_foreign_alg ⟨"secret-a", 900, "go-basics"⟩
      (generateToken ⟨"secret-b", 900, "go-basics"⟩ 7 "alice@example.com" 1000) 1500).2.2.1
      ⟨"secret-b", 900, "go-basics"⟩ 7 "alice@example.com" 1000 (by decide)).1,
   ((C2_reject_bad_signature_and_foreign_alg ⟨"secret-a", 900, "go-basics"⟩
      (generateToken ⟨"secret-b", 900, "go-basics"⟩ 7 "alice@example.com" 1000) 1500).2.2.1
      ⟨"secret-b", 900, "go-basics"⟩ 7 "alice@example.com" 1000 (by decide)).2,
   ((C2_reject_bad_signature_and_foreign_alg ⟨"secret-a", 900, "go-basics"⟩
      { alg := .RS256,
        claims := { userID := 7, email := "alice@example.com", iss := "go-basics",
                    exp := 1900, iat := 1000, nbf := 1000 },
        sig := hmacSign "secret-a" .RS256
          { userID := 7, email := "alice@example.com", iss := "go-basics",
            exp := 1900, iat := 1000, nbf := 1000 } } 1500).2.1 (by decide)).1⟩

/-- C3: on the mutating user endpoints (`PUT /users/{id}` and
`DELETE /users/{id}`), a subject whose id equals the target id proceeds into
the operation, a subject whose id differs is rejected with 403 Forbidden, and
a request with no identity in context is rejected with 401 — two distinct
outcomes. -/
theorem C3_mutation_requires_ownership (st : Store) (c : Claims) (idStr : String) (id : Nat)
    (body : Option UpdateRequest) (salt : Nat)
    (hid : parseUint64 idStr = some id) :
    (c.userID = id →
      updateHandler idStr (some c) body st salt = updateCore st id body salt ∧
      deleteHandler idStr (some c) st = deleteCore st id) ∧
    (c.userID ≠ id →
      updateHandler idStr (some c) body st salt =
        (.errJson 403 "you can only update your own profile", st) ∧
      deleteHandler idStr (some c) st =
        (.errJson 403 "you can only delete your own account", st)) ∧
    (updateHandler idStr none body st salt = (.errJson 401 "unauthorized", st) ∧
     deleteHandler idStr none st = (.errJson 401 "unauthorized", st)) ∧
    (HResp.errJson 403 "you can only update your own profile" ≠
       HResp.errJson 401 "unauthorized" ∧
     HResp.errJson 403 "you can only delete your own account" ≠
       HResp.errJson 401 "unauthorized") := by
  refine ⟨?_, ?_, ?_, by decide, by decide⟩
  · intro h
    constructor <;> simp [updateHandler, deleteHandler, hid, h]
  · intro h
    constructor <;> simp [updateHandler, deleteHandler, hid, h]
  · constructor <;> simp [updateHandler, deleteHandler, hid]

/-- Witness for C3: subject id 5 acting on resource 5 proceeds; the same
subject acting on resource 6 is rejected with 403. -/
theorem C3_mutation_requires_ownership_witness :
    updateHandler "5" (some ⟨5, "alice@example.com", "go-basics", 1900, 1000, 1000⟩)
        (some ⟨"", ""⟩) [] 0 = updateCore [] 5 (some ⟨"", ""⟩) 0 ∧
    deleteHandler "6" (some ⟨5, "alice@example.com", "go-basics", 1900, 1000, 1000⟩) [] =
      (.errJson 403 "you can only delete your own account", []) :=
  ⟨((C3_mutation_requires_ownership []
        ⟨5, "alice@example.com", "go-basics", 1900, 1000, 1000⟩ "5" 5
        (some ⟨"", ""⟩) 0 (by decide)).1 (by decide)).1,
   ((C3_mutation_requires_ownership []
        ⟨5, "alice@example.com", "go-basics", 1900, 1000, 1000⟩ "6" 6
        (some ⟨"", ""⟩) 0 (by decide)).2.1 (by decide)).2⟩

/-- C4: the gate extracts a token exactly when the Authorization header value
splits on spaces into exactly two parts with the first case-insensitively
equal to "Bearer"; for any other shape the request is rejected with the
missing-credential response, and the rejection does not depend on the token
codec at all. -/
theorem C4_bearer_extraction_shape (h : String) :
    (∀ tok, extractBearerToken h = some tok ↔
      ∃ scheme, strSplit h ' ' = [scheme, tok] ∧ strToLower scheme = "bearer") ∧
    (extractBearerToken h = none →
      ∀ v₁ v₂ : String → Except ValidateErr Claims,
        authenticate v₁ h = .rejected 401 "missing or invalid authorization header" ∧
        authenticate v₁ h = authenticate v₂ h) := by
  constructor
  · intro tok
    unfold extractBearerToken
    by_cases h0 : h = ""
    · subst h0
      rw [if_pos rfl, show strSplit "" ' ' = [""] from rfl]
      constructor
      · intro h'
        simp at h'
      · rintro ⟨sc, hsc, -⟩
        simp at hsc
    · rw [if_neg h0]
      rcases hsp : strSplit h ' ' with - | ⟨s, - | ⟨t2, - | ⟨t3, rest⟩⟩⟩
      · constructor
        · intro h'
          simp at h'
        · rintro ⟨sc, hsc, -⟩
          simp at hsc
      · constructor
        · intro h'
          simp at h'
        · rintro ⟨sc, hsc, -⟩
          simp at hsc
      · by_cases hb : strToLower s = "bearer"
        · rw [show (match [s, t2] with
                | [scheme, tok] =>
                    if strToLower scheme = "bearer" then some tok else none
                | _ => none)
              = (if strToLower s = "bearer" then some t2 else none) from rfl,
            if_pos hb]
          constructor
          · intro h'
            have ht : t2 = tok := by injection h'
            exact ⟨s, by rw [ht], hb⟩
          · rintro ⟨sc, hsc, -⟩
            simp at hsc
            rw [hsc.2]
        · rw [show (match [s, t2] with
                | [scheme, tok] =>
                    if strToLower scheme = "bearer" then some tok else none
                | _ => none)
              = (if strToLower s = "bearer" then some t2 else none) from rfl,
            if_neg hb]
          constructor
          · intro h'
            simp at h'
          · rintro ⟨sc, hsc, hlow⟩
            simp at hsc
            exact absurd (hsc.1 ▸ hlow) hb
      · constructor
        · intro h'
          simp at h'
        · rintro ⟨sc, hsc, -⟩
          simp at hsc
  · intro hnone v₁ v₂
    constructor <;> simp [authenticate, hnone]

/-- Witness for C4: "Bearer xyz" extracts the token "xyz"; "Token xyz"
(wrong scheme) and "Bearer" alone are rejected with the missing-credential
response regardless of the codec. -/
theorem C4_bearer_extraction_shape_witness :
    extractBearerToken "Bearer xyz" = some "xyz" ∧
    authenticate (fun _ => .error .invalidToken) "Token xyz" =
      .rejected 401 "missing or invalid authorization header" ∧
    authenticate (fun _ => .error .invalidToken) "Bearer" =
      .rejected 401 "missing or invalid authorization header" :=
  ⟨((C4_bearer_extraction_shape "Bearer xyz").1 "xyz").mpr
      ⟨"Bearer", by decide, by decide⟩,
   ((C4_bearer_extraction_shape "Token xyz").2 (by decide)
      (fun _ => .error .invalidToken) (fun _ => .ok ⟨0, "", "", 0, 0, 0⟩)).1,
   ((C4_bearer_extraction_shape "Bearer").2 (by decide)
      (fun _ => .error .invalidToken) (fun _ => .ok ⟨0, "", "", 0, 0, 0⟩)).1⟩

/-- C5: once a token has been extracted, the gate answers "token has expired"
exactly when the codec returned `ErrExpiredToken`, and any other codec
failure yields the single generic "invalid token" response; the two
rejections are distinct outcomes. -/
theorem C5_expired_surfaced_distinctly (validate : String → Except ValidateErr Claims)
    (h tok : String) (hex : extractBearerToken h = some tok) :
    (authenticate validate h = .rejected 401 "token has expired" ↔
      validate tok = .error .expiredToken) ∧
    (validate tok = .error .invalidToken →
      authenticate validate h = .rejected 401 "invalid token") ∧
    AuthOutcome.rejected 401 "token has expired" ≠
      AuthOutcome.rejected 401 "invalid token" := by
  refine ⟨?_, ?_, by decide⟩
  · rcases hv : validate tok with e | c
    · cases e <;> simp [authenticate, hex, hv]
    · simp [authenticate, hex, hv]
  · intro hv
    simp [authenticate, hex, hv]

/-- Witness for C5 with a concrete header and codec outcomes. -/
theorem C5_expired_surfaced_distinctly_witness :
    authenticate (fun _ => .error .expiredToken) "Bearer xyz" =
      .rejected 401 "token has expired" ∧
    authenticate (fun _ => .error .invalidToken) "Bearer xyz" =
      .rejected 401 "invalid token" :=
  ⟨((C5_expired_surfaced_distinctly (fun _ => .error .expiredToken) "Bearer xyz" "xyz"
      (by decide)).1).mpr rfl,
   (C5_expired_surfaced_distinctly (fun _ => .error .invalidToken) "Bearer xyz" "xyz"
      (by decide)).2.1 rfl⟩

/-- The number of UTF-8 bytes of a character equals `Char.utf8Size`. -/
theorem utf8Bytes_length (c : Char) : (utf8Bytes c).length = c.utf8Size := by
  rw [show c.utf8Size = if c.toNat ≤ 0x7F then 1 else if c.toNat ≤ 0x7FF then 2
        else if c.toNat ≤ 0xFFFF then 3 else 4 from rfl]
  unfold utf8Bytes
  split_ifs <;> rfl

/-- The byte length of a string equals Go's `len` (`String.utf8ByteSize`). -/
theorem strBytes_length (s : String) : (strBytes s).length = s.utf8ByteSize := by
  cases s with
  | mk data =>
    induction data with
    | nil => rfl
    | cons c cs ih =>
      show (utf8Bytes c ++ (List.map utf8Bytes cs).flatten).length
          = String.utf8ByteSize.go cs + c.utf8Size
      rw [List.length_append, utf8Bytes_length]
      have hgo : ((List.map utf8Bytes cs).flatten).length = String.utf8ByteSize.go cs := ih
      omega

/-- Entry formula for `cyclicTake`. -/
theorem cyclicTake_getElem? (n : Nat) (bs : List Nat) (i : Nat) (h : i < n) :
    (cyclicTake n bs)[i]? = some (bs.getD (i % bs.length) 0) := by
  simp [cyclicTake, List.getElem?_map, List.getElem?_range h]

/-- An in-range entry of the cyclic key material is the password byte. -/
theorem cyclicTake_append_zero_lt (ds : List Nat) (i : Nat) (h72 : i < 72)
    (hi : i < ds.length) :
    (cyclicTake 72 (ds ++ [0]))[i]? = some (ds.getD i 0) := by
  rw [cyclicTake_getElem? 72 (ds ++ [0]) i h72]
  have hlen : (ds ++ [0]).length = ds.length + 1 := by simp
  rw [hlen, Nat.mod_eq_of_lt (by omega)]
  simp [List.getD_eq_getElem?_getD, List.getElem?_append_left hi]

/-- The entry right after the password bytes is the appended NUL. -/
theorem cyclicTake_append_zero_at_len (ds : List Nat) (h72 : ds.length < 72) :
    (cyclicTake 72 (ds ++ [0]))[ds.length]? = some 0 := by
  rw [cyclicTake_getElem? 72 (ds ++ [0]) ds.length h72]
  have hlen : (ds ++ [0]).length = ds.length + 1 := by simp
  rw [hlen, Nat.mod_eq_of_lt (Nat.lt_succ_self _)]
  simp [List.getD_eq_getElem?_getD, List.getElem?_append_right (Nat.le_refl ds.length)]

/-- On NUL-free byte strings of at most 72 bytes, the bcrypt key-schedule
material is injective: the position of the appended NUL recovers the length
and the in-range entries recover the bytes. -/
theorem bcrypt_material_inj (bs cs : List Nat) (hb : bs.length ≤ 72) (hc : cs.length ≤ 72)
    (hb0 : ∀ x ∈ bs, x ≠ 0) (hc0 : ∀ x ∈ cs, x ≠ 0)
    (h : cyclicTake 72 (bs ++ [0]) = cyclicTake 72 (cs ++ [0])) : bs = cs := by
  have hlen : bs.length = cs.length := by
    by_contra hne
    rcases Nat.lt_or_ge bs.length cs.length with hlt | hge
    · have e1 := cyclicTake_append_zero_at_len bs (lt_of_lt_of_le hlt hc)
      have e2 := cyclicTake_append_zero_lt cs bs.length (lt_of_lt_of_le hlt hc) hlt
      rw [h, e2] at e1
      have e3 : cs.getD bs.length 0 = 0 := by injection e1
      rw [List.getD_eq_getElem?_getD, List.getElem?_eq_getElem hlt] at e3
      exact hc0 _ (List.getElem_mem hlt) e3
    · have hlt : cs.length < bs.length := by omega
      have e1 := cyclicTake_append_zero_at_len cs (lt_of_lt_of_le hlt hb)
      have e2 := cyclicTake_append_zero_lt bs cs.length (lt_of_lt_of_le hlt hb) hlt
      rw [← h, e2] at e1
      have e3 : bs.getD cs.length 0 = 0 := by injection e1
      rw [List.getD_eq_getElem?_getD, List.getElem?_eq_getElem hlt] at e3
      exact hb0 _ (List.getElem_mem hlt) e3
  apply List.ext_getElem hlen
  intro i h1 h2
  have h72 : i < 72 := lt_of_lt_of_le h1 hb
  have e1 := cyclicTake_append_zero_lt bs i h72 h1
  have e2 := cyclicTake_append_zero_lt cs i h72 h2
  rw [h, e2] at e1
  have e3 : cs.getD i 0 = bs.getD i 0 := by injection e1
  rw [List.getD_eq_getElem?_getD, List.getD_eq_getElem?_getD,
      List.getElem?_eq_getElem h2, List.getElem?_eq_getElem h1] at e3
  simpa using e3.symm

/-- C6 counterexample: Go's `CompareHashAndPassword` has no length check and
the Blowfish key schedule reads only the first 72 bytes of the
NUL-terminated password, cyclically — so the digest of a 72-byte password
also verifies the distinct 73-byte extension of it, and
`Service.Authenticate` accepts that other plaintext, refuting "verifying any
other plaintext against that digest returns false". -/
theorem C6_truncation_counterexample :
    String.mk (List.replicate 72 'a') ++ "x" ≠ String.mk (List.replicate 72 'a') ∧
    hashPassword (String.mk (List.replicate 72 'a')) 0 =
      .ok ⟨bcryptCost, 0, bcryptKey (String.mk (List.replicate 72 'a'))⟩ ∧
    bcryptCompareHashAndPassword
        ⟨bcryptCost, 0, bcryptKey (String.mk (List.replicate 72 'a'))⟩
        (String.mk (List.replicate 72 'a') ++ "x") = true ∧
    serviceAuthenticate
        [⟨1, "alice@example.com",
          ⟨bcryptCost, 0, bcryptKey (String.mk (List.replicate 72 'a'))⟩, false⟩]
        "alice@example.com" (String.mk (List.replicate 72 'a') ++ "x") =
      .ok ⟨1, "alice@example.com",
           ⟨bcryptCost, 0, bcryptKey (String.mk (List.replicate 72 'a'))⟩, false⟩ :=
  ⟨by decide, by rfl, by decide, by rfl⟩

/-- C6 (amended): hashing a valid password (8–72 bytes) and verifying the
same plaintext succeeds; verifying another plaintext succeeds exactly when
its bcrypt key-schedule material (the first 72 bytes of the NUL-terminated
plaintext, cyclically) coincides with the original's — in particular every
NUL-free plaintext of at most 72 bytes other than the original is rejected,
both at the primitive and through `Service.Authenticate`, while e.g. an
extension of a 72-byte password is accepted (the primitive's truncation,
which the spec requires replicated). -/
theorem C6_hash_then_verify (p q : String) (salt : Nat)
    (_hmin : minPasswordLength ≤ p.utf8ByteSize)
    (hmax : p.utf8ByteSize ≤ maxPasswordLength) :
    hashPassword p salt = .ok ⟨bcryptCost, salt, bcryptKey p⟩ ∧
    bcryptCompareHashAndPassword ⟨bcryptCost, salt, bcryptKey p⟩ p = true ∧
    (∀ r : String,
      bcryptCompareHashAndPassword ⟨bcryptCost, salt, bcryptKey p⟩ r = true ↔
        bcryptKey r = bcryptKey p) ∧
    (q.utf8ByteSize ≤ maxPasswordLength → (∀ x ∈ strBytes p, x ≠ 0) →
      (∀ x ∈ strBytes q, x ≠ 0) → strBytes q ≠ strBytes p →
      bcryptCompareHashAndPassword ⟨bcryptCost, salt, bcryptKey p⟩ q = false) ∧
    (∀ st email u, findByEmail st (strToLower email) = some u →
      u.passwordHash = ⟨bcryptCost, salt, bcryptKey p⟩ →
      serviceAuthenticate st email p = .ok u ∧
      (bcryptKey q ≠ bcryptKey p →
        serviceAuthenticate st email q = .error .invalidCredentials)) := by
  have hh : hashPassword p salt = .ok ⟨bcryptCost, salt, bcryptKey p⟩ := by
    unfold hashPassword bcryptGenerateFromPassword
    rw [if_neg (by unfold maxPasswordLength at hmax; omega)]
    norm_num [bcryptCost]
  have hcp : bcryptCompareHashAndPassword ⟨bcryptCost, salt, bcryptKey p⟩ p = true := by
    simp [bcryptCompareHashAndPassword]
  have hiff : ∀ r : String,
      bcryptCompareHashAndPassword ⟨bcryptCost, salt, bcryptKey p⟩ r = true ↔
        bcryptKey r = bcryptKey p := by
    intro r
    simp only [bcryptCompareHashAndPassword, beq_iff_eq]
    exact eq_comm
  refine ⟨hh, hcp, hiff, ?_, ?_⟩
  · intro hq72 hp0 hq0 hne
    cases hb : bcryptCompareHashAndPassword ⟨bcryptCost, salt, bcryptKey p⟩ q with
    | false => rfl
    | true =>
      exfalso
      have hk : bcryptKey q = bcryptKey p := (hiff q).mp hb
      have hlp : (strBytes p).length ≤ 72 := by
        rw [strBytes_length]
        unfold maxPasswordLength at hmax
        exact hmax
      have hlq : (strBytes q).length ≤ 72 := by
        rw [strBytes_length]
        unfold maxPasswordLength at hq72
        exact hq72
      exact hne (bcrypt_material_inj (strBytes q) (strBytes p) hlq hlp hq0 hp0 hk)
  · intro st email u hfind hhash
    constructor
    · simp [serviceAuthenticate, hfind, hhash, hcp]
    · intro hkne
      have hcq : bcryptCompareHashAndPassword ⟨bcryptCost, salt, bcryptKey p⟩ q = false := by
        cases hb : bcryptCompareHashAndPassword ⟨bcryptCost, salt, bcryptKey p⟩ q with
        | false => rfl
        | true => exact absurd ((hiff q).mp hb) hkne
      simp [serviceAuthenticate, hfind, hhash, hcq]

/-- Witness for C6: a digest of "password123" verifies "password123" and
rejects "password124" through the login path. -/
theorem C6_hash_then_verify_witness :
    serviceAuthenticate
        [⟨1, "alice@example.com", ⟨bcryptCost, 0, bcryptKey "password123"⟩, false⟩]
        "alice@example.com" "password123" =
      .ok ⟨1, "alice@example.com", ⟨bcryptCost, 0, bcryptKey "password123"⟩, false⟩ ∧
    serviceAuthenticate
        [⟨1, "alice@example.com", ⟨bcryptCost, 0, bcryptKey "password123"⟩, false⟩]
        "alice@example.com" "password124" = .error .invalidCredentials :=
  ⟨((C6_hash_then_verify "password123" "password124" 0 (by decide) (by decide)).2.2.2.2
      [⟨1, "alice@example.com", ⟨bcryptCost, 0, bcryptKey "password123"⟩, false⟩]
      "alice@example.com"
      ⟨1, "alice@example.com", ⟨bcryptCost, 0, bcryptKey "password123"⟩, false⟩
      (by decide) rfl).1,
   ((C6_hash_then_verify "password123" "password124" 0 (by decide) (by decide)).2.2.2.2
      [⟨1, "alice@example.com", ⟨bcryptCost, 0, bcryptKey "password123"⟩, false⟩]
      "alice@example.com"
      ⟨1, "alice@example.com", ⟨bcryptCost, 0, bcryptKey "password123"⟩, false⟩
      (by decide) rfl).2 (by decide)⟩

/-- C7: on the validated service path (repository.go) the claim holds —
`validatePassword` rejects exactly the weak shapes (empty, fewer than 8
bytes, more than 72 bytes) and `Service.Create` refuses such input — but the
duplicate minimal `Service.Create` (service.go) performs no password
validation at all: registering with the 3-byte password "abc" succeeds and
inserts the user, contradicting the claim on the source as a whole. -/
theorem C7_weak_password_gate_divergence :
    (∀ p : String, (validatePassword p).isSome ↔
      (p = "" ∨ p.utf8ByteSize < 8 ∨ 72 < p.utf8ByteSize)) ∧
    validatePassword "abc" = some .passwordTooShort ∧
    serviceCreate [] "alice@example.com" "abc" 0 = .error .passwordTooShort ∧
    serviceCreateMinimal [] "alice@example.com" "abc" 0 =
      .ok (⟨1, "alice@example.com", ⟨10, 0, bcryptKey "abc"⟩, false⟩,
           [⟨1, "alice@example.com", ⟨10, 0, bcryptKey "abc"⟩, false⟩]) := by
  refine ⟨?_, rfl, rfl, rfl⟩
  intro p
  unfold validatePassword minPasswordLength maxPasswordLength
  by_cases h1 : p = ""
  · simp [h1]
  · rw [if_neg h1]
    by_cases h2 : p.utf8ByteSize < 8
    · simp [h1, h2]
    · rw [if_neg h2]
      by_cases h3 : 72 < p.utf8ByteSize
      · simp [h1, h2, h3]
      · simp [h1, h2, h3]

/-- C8: the handler-wired hashing path uses `bcryptCost = 12`, but the
duplicate minimal service (service.go) hashes with `bcrypt.DefaultCost`,
which is 10 < 12 — so not every digest the source produces has cost factor
at least 12. -/
theorem C8_cost_factor_divergence :
    bcryptCost = 12 ∧
    hashPassword "password123" 0 = .ok ⟨12, 0, bcryptKey "password123"⟩ ∧
    serviceCreateMinimal [] "alice@example.com" "password123" 0 =
      .ok (⟨1, "alice@example.com", ⟨bcryptDefaultCost, 0, bcryptKey "password123"⟩, false⟩,
           [⟨1, "alice@example.com", ⟨bcryptDefaultCost, 0, bcryptKey "password123"⟩, false⟩]) ∧
    serviceUpdateMinimal [⟨1, "alice@example.com", ⟨12, 0, bcryptKey "old-password"⟩, false⟩]
        1 "alice@example.com" "password123" 0 =
      .ok (⟨1, "alice@example.com", ⟨bcryptDefaultCost, 0, bcryptKey "password123"⟩, false⟩,
           [⟨1, "alice@example.com", ⟨bcryptDefaultCost, 0, bcryptKey "password123"⟩, false⟩]) ∧
    bcryptDefaultCost < 12 :=
  ⟨rfl, rfl, rfl, rfl, by decide⟩

/-- C9: a login against a non-existent email and a login with a wrong
password for an existing email produce the very same
`ErrInvalidCredentials`, in both `Service.Authenticate` (repository.go) and
`Service.Login` (service.go), so the outcome does not reveal whether the
email exists. -/
theorem C9_uniform_invalid_credentials (st : Store) (e1 e2 p q : String) (u : User)
    (h1 : findByEmail st (strToLower e1) = none)
    (h2 : findByEmail st (strToLower e2) = some u)
    (h3 : bcryptCompareHashAndPassword u.passwordHash q = false)
    (h4 : findByEmail st e1 = none)
    (h5 : findByEmail st e2 = some u) :
    serviceAuthenticate st e1 p = .error .invalidCredentials ∧
    serviceAuthenticate st e2 q = .error .invalidCredentials ∧
    serviceAuthenticate st e1 p = serviceAuthenticate st e2 q ∧
    serviceLogin st e1 p = .error .invalidCredentials ∧
    serviceLogin st e2 q = .error .invalidCredentials := by
  have a1 : serviceAuthenticate st e1 p = .error .invalidCredentials := by
    simp [serviceAuthenticate, h1]
  have a2 : serviceAuthenticate st e2 q = .error .invalidCredentials := by
    simp [serviceAuthenticate, h2, h3]
  exact ⟨a1, a2, a1.trans a2.symm,
    by simp [serviceLogin, h4], by simp [serviceLogin, h5, h3]⟩

/-- Witness for C9: unknown email "ghost@example.com" and wrong password for
"alice@example.com" both answer `ErrInvalidCredentials`. -/
theorem C9_uniform_invalid_credentials_witness :
    serviceAuthenticate [⟨1, "alice@example.com", ⟨12, 0, bcryptKey "password123"⟩, false⟩]
        "ghost@example.com" "whatever1" = .error .invalidCredentials ∧
    serviceAuthenticate [⟨1, "alice@example.com", ⟨12, 0, bcryptKey "password123"⟩, false⟩]
        "alice@example.com" "password124" = .error .invalidCredentials ∧
    serviceAuthenticate [⟨1, "alice@example.com", ⟨12, 0, bcryptKey "password123"⟩, false⟩]
        "ghost@example.com" "whatever1" =
      serviceAuthenticate [⟨1, "alice@example.com", ⟨12, 0, bcryptKey "password123"⟩, false⟩]
        "alice@example.com" "password124" ∧
    serviceLogin [⟨1, "alice@example.com", ⟨12, 0, bcryptKey "password123"⟩, false⟩]
        "ghost@example.com" "whatever1" = .error .invalidCredentials ∧
    serviceLogin [⟨1, "alice@example.com", ⟨12, 0, bcryptKey "password123"⟩, false⟩]
        "alice@example.com" "password124" = .error .invalidCredentials :=
  C9_uniform_invalid_credentials
    [⟨1, "alice@example.com", ⟨12, 0, bcryptKey "password123"⟩, false⟩]
    "ghost@example.com" "alice@example.com" "whatever1" "password124"
    ⟨1, "alice@example.com", ⟨12, 0, bcryptKey "password123"⟩, false⟩
    (by decide) (by decide) (by decide) (by decide) (by decide)

/-- A user returned by `findByID` satisfies the query's filter: it is not
soft-deleted and carries the requested id. -/
theorem findByID_spec (st : Store) (id : Nat) (u : User)
    (h : findByID st id = some u) : u.deleted = false ∧ u.id = id := by
  unfold findByID at h
  rcases hf : st.filter (fun v => !v.deleted && v.id == id) with - | ⟨a, t⟩
  · rw [hf] at h
    simp at h
  · rw [hf] at h
    simp at h
    have hmem : a ∈ st.filter (fun v => !v.deleted && v.id == id) := by
      rw [hf]
      exact List.mem_cons_self _ _
    have hp := List.of_mem_filter hmem
    rw [h] at hp
    simp at hp
    exact hp

/-- C10: `GET /users/{id}` runs behind the authentication gate but performs
no ownership check: any authenticated subject — whatever its own id — can
fetch any existing, non-deleted user and receives that user's id and email,
while a request the gate rejects never reaches the handler. -/
theorem C10_get_authenticated_but_no_ownership
    (validate : String → Except ValidateErr Claims) (authHeader idStr : String)
    (st : Store) (c : Claims) (id : Nat) (u : User)
    (hauth : authenticate validate authHeader = .passed c)
    (hid : parseUint64 idStr = some id)
    (hu : findByID st id = some u) :
    authedGet validate authHeader idStr st = .json 200 ⟨u.id, u.email⟩ ∧
    u.deleted = false ∧
    (∀ (h2 : String) (s : Nat) (msg : String),
      authenticate validate h2 = .rejected s msg →
      authedGet validate h2 idStr st = .plainErr s msg) := by
  refine ⟨?_, (findByID_spec st id u hu).1, ?_⟩
  · simp [authedGet, hauth, getHandler, hid, serviceGetByID, hu]
  · intro h2 s msg hrej
    simp [authedGet, hrej]

/-- Witness for C10: a subject with id 5 reads user 6's profile through the
authenticated route, and an unauthenticated request is rejected. -/
theorem C10_get_authenticated_but_no_ownership_witness :
    authedGet (fun _ => .ok ⟨5, "attacker@example.com", "go-basics", 2000, 1000, 1000⟩)
        "Bearer tok" "6" [⟨6, "bob@example.com", ⟨12, 0, bcryptKey "password456"⟩, false⟩] =
      .json 200 ⟨6, "bob@example.com"⟩ ∧
    (⟨6, "bob@example.com", ⟨12, 0, bcryptKey "password456"⟩, false⟩ : User).deleted = false ∧
    (∀ (h2 : String) (s : Nat) (msg : String),
      authenticate (fun _ => .ok ⟨5, "attacker@example.com", "go-basics", 2000, 1000, 1000⟩)
          h2 = .rejected s msg →
      authedGet (fun _ => .ok ⟨5, "attacker@example.com", "go-basics", 2000, 1000, 1000⟩)
          h2 "6" [⟨6, "bob@example.com", ⟨12, 0, bcryptKey "password456"⟩, false⟩] = .plainErr s msg) :=
  C10_get_authenticated_but_no_ownership
    (fun _ => .ok ⟨5, "attacker@example.com", "go-basics", 2000, 1000, 1000⟩)
    "Bearer tok" "6" [⟨6, "bob@example.com", ⟨12, 0, bcryptKey "password456"⟩, false⟩]
    ⟨5, "attacker@example.com", "go-basics", 2000, 1000, 1000⟩ 6
    ⟨6, "bob@example.com", ⟨12, 0, bcryptKey "password456"⟩, false⟩
    rfl (by decide) (by decide)
